import Mathlib

/-!
Verification of the protodex dependency-resolution and code-generation core.

The Go sources are embedded shallowly: pure helpers become Lean functions on
`String` (internally on `List Char`; all inputs of interest are ASCII, where
Go's byte-oriented string operations and the char-list model coincide), and
effectful functions (filesystem, network, process spawning) become functions
from an explicit environment to a result paired with a trace of effects.
-/

deriving instance DecidableEq for Except

namespace Protodex

/-! ## Go string primitives

Each mirrors the semantics of the Go standard-library function it is named
after, restricted to ASCII input. -/

/-- Model of Go `strings.HasPrefix` on char lists. -/
def hasPfx : List Char → List Char → Bool
  | _, [] => true
  | [], _ :: _ => false
  | c :: cs, p :: ps => c = p && hasPfx cs ps

/-- Model of Go `strings.HasSuffix` on char lists. -/
def hasSfx (l p : List Char) : Bool := hasPfx l.reverse p.reverse

/-- Model of Go `strings.TrimPrefix` on char lists: drop `p` when it is a
prefix of `l`, else return `l` unchanged. -/
def dropPfx (l p : List Char) : List Char :=
  if hasPfx l p then l.drop p.length else l

/-- Model of Go `strings.TrimSuffix` on char lists. -/
def dropSfx (l p : List Char) : List Char :=
  if hasSfx l p then l.take (l.length - p.length) else l

/-- String wrapper for `hasPfx`. -/
def sHasPfx (s p : String) : Bool := hasPfx s.toList p.toList

/-- String wrapper for `hasSfx`. -/
def sHasSfx (s p : String) : Bool := hasSfx s.toList p.toList

/-- String wrapper for `dropPfx` (Go `strings.TrimPrefix`). -/
def sDropPfx (s p : String) : String := String.mk (dropPfx s.toList p.toList)

/-- String wrapper for `dropSfx` (Go `strings.TrimSuffix`). -/
def sDropSfx (s p : String) : String := String.mk (dropSfx s.toList p.toList)

/-- Split a char list at the LAST occurrence of `'@'`: the model of
`strings.LastIndex(input, "@")` followed by the two slices
`input[:atIndex]` and `input[atIndex+1:]`.  Returns `none` when no `'@'`
occurs. -/
def splitLastAtAux : List Char → Option (List Char × List Char)
  | [] => none
  | c :: cs =>
    match splitLastAtAux cs with
    | some (a, b) => some (c :: a, b)
    | none => if c = '@' then some ([], cs) else none

/-- String wrapper for `splitLastAtAux`. -/
def splitLastAt (s : String) : Option (String × String) :=
  (splitLastAtAux s.toList).map (fun p => (String.mk p.1, String.mk p.2))

/-- Model of Go `strings.Contains(s, "@")`. -/
def containsAt (s : String) : Bool := s.toList.contains '@'

/-- Split a char list at the FIRST occurrence of the separator `"://"`. -/
def splitSchemeSepAux : List Char → Option (List Char × List Char)
  | [] => none
  | c :: cs =>
    if c = ':' && cs.take 2 = ['/', '/'] then some ([], cs.drop 2)
    else (splitSchemeSepAux cs).map (fun p => (c :: p.1, p.2))

/-- String wrapper for `splitSchemeSepAux`. -/
def splitSchemeSep (s : String) : Option (String × String) :=
  (splitSchemeSepAux s.toList).map (fun p => (String.mk p.1, String.mk p.2))

/-- Model of Go `strings.Contains(s, "://")`. -/
def containsSchemeSep (s : String) : Bool := (splitSchemeSepAux s.toList).isSome

/-- Chars of a list up to (excluding) the first `'/'`: the model of
`strings.Split(s, "/")[0]`. -/
def takeUntilSlash : List Char → List Char
  | [] => []
  | c :: cs => if c = '/' then [] else c :: takeUntilSlash cs

/-- Model of Go `strings.Split(s, "/")` on char lists (always at least one
piece; `strings.Split("", "/") = [""]`). -/
def splitSlashAux : List Char → List (List Char)
  | [] => [[]]
  | c :: cs =>
    if c = '/' then [] :: splitSlashAux cs
    else
      match splitSlashAux cs with
      | [] => [[c]]
      | p :: ps => (c :: p) :: ps

/-- String wrapper for `splitSlashAux` (Go `strings.Split(s, "/")`). -/
def splitSlash (s : String) : List String :=
  (splitSlashAux s.toList).map String.mk

/-- Interleave `'/'` between char-list pieces (Go `strings.Join` with
separator `"/"`, at the char level). -/
def joinSlashAux : List (List Char) → List Char
  | [] => []
  | [x] => x
  | x :: xs => x ++ '/' :: joinSlashAux xs

/-- Model of Go `strings.Join(parts, "/")`. -/
def joinSlash (parts : List String) : String :=
  String.mk (joinSlashAux (parts.map String.toList))

/-- Model of Go `cmp.Or(a, b)` on strings: the first non-zero (non-empty)
value. -/
def goOr (a b : String) : String := if a = "" then b else a

/-- ASCII lower-casing of one character (the restriction of Go
`strings.ToLower` to the ASCII range, which covers every scheme this
program compares against). -/
def asciiLower (c : Char) : Char :=
  if 'A' ≤ c && c ≤ 'Z' then Char.ofNat (c.toNat + 32) else c

/-- Model of Go `strings.ToLower` on ASCII strings. -/
def sToLower (s : String) : String := String.mk (s.toList.map asciiLower)

/-! ## SourceParser (internal/manager/fetcher/parser.go) -/

/-- The closed set of source types (`SourceType` string constants in
parser.go). -/
inductive SourceType where
  | github
  | http
  | googleWellKnown
  | local
  | protodex
deriving DecidableEq

/-- Result of a successful parse (`SourceInfo` in parser.go). -/
structure SourceInfo where
  type : SourceType
  source : String
  version : String
  raw : String
deriving DecidableEq

/-- Errors of `ParseSource` (each `fmt.Errorf` branch in parser.go). -/
inductive ParseErr where
  | emptySource
  | invalidFormat
  | missingScheme
  | unsupportedType (scheme : String)
deriving DecidableEq

/-- Model of the relevant projection of Go `net/url.Parse`: for an input of
the form `scheme://rest` it yields the scheme, the host (`rest` up to the
first `/`) and the path (the remainder, including its leading `/`); an
input without `://` is treated as having an empty scheme.  Faithful for the
inputs this program feeds it: no userinfo, port, query or fragment. -/
structure GoURL where
  scheme : String
  host : String
  path : String
deriving DecidableEq

/-- URL split used by the `url.Parse` model. -/
def urlParse (s : String) : GoURL :=
  match splitSchemeSep s with
  | some (sch, rest) =>
    let restL := rest.toList
    match splitSlashAux restL with
    | [] => { scheme := sch, host := "", path := "" }
    | h :: t =>
      { scheme := sch
        host := String.mk h
        path := if t.isEmpty then "" else "/" ++ joinSlash (t.map String.mk) }
  | none => { scheme := "", host := "", path := s }

/-- Model of `isLocalPath` (parser.go:95-100). -/
def isLocalPath (input : String) : Bool :=
  sHasPfx input "./" || sHasPfx input "../" || sHasPfx input "/" ||
    (!containsSchemeSep input && !containsAt input)

/-- Model of `getDefaultVersion` (parser.go:102-111). -/
def getDefaultVersion : SourceType → String
  | .github => "main"
  | .protodex => "latest"
  | _ => ""

/-- The scheme table inside `ParseSource` (parser.go:66-79), applied to the
lower-cased scheme. -/
def schemeToType (scheme : String) : Option SourceType :=
  match sToLower scheme with
  | "http" => some .http
  | "https" => some .http
  | "github" => some .github
  | "google-well-known" => some .googleWellKnown
  | "protodex" => some .protodex
  | "file" => some .local
  | _ => none

/-- Model of `ParseSource` (parser.go:26-93). -/
def ParseSource (input : String) : Except ParseErr SourceInfo :=
  if input = "" then .error .emptySource
  else if sHasPfx input "file://" then
    .ok { type := .local, source := sDropPfx input "file://", version := "", raw := input }
  else if isLocalPath input then
    .ok { type := .local, source := input, version := "", raw := input }
  else
    let (baseInput, version) :=
      match splitLastAt input with
      | some (a, b) => (a, b)
      | none => (input, "")
    let parsedURL := urlParse baseInput
    if parsedURL.scheme = "" then .error .missingScheme
    else
      match schemeToType parsedURL.scheme with
      | none => .error (.unsupportedType parsedURL.scheme)
      | some ty =>
        .ok { type := ty
              source := parsedURL.host ++ parsedURL.path
              version := if version ≠ "" then version else getDefaultVersion ty
              raw := input }

/-- The `Fetcher` struct (part_000:21-27); the HTTP client field carries no
observable state and is omitted. -/
structure Fetcher where
  sourceType : SourceType
  source : String
  version : String
  dest : String
deriving DecidableEq

/-- Model of `NewFetcher` (part_000:37-48): for a Local source an empty
destination defaults to the source via `cmp.Or`; every other type keeps
the destination as given. -/
def NewFetcher (sourceType : SourceType) (source version dest : String) : Fetcher :=
  let dest := if sourceType = .local then goOr dest source else dest
  { sourceType := sourceType, source := source, version := version, dest := dest }

/-! ## Fetcher effect model (src/unnamed/part_000, package fetcher)

Filesystem and network effects are made explicit: each effectful Go
function becomes a Lean function from a `FetchEnv` (the outcomes the
outside world would produce) to its result paired with the ordered trace
of externally visible effects it performs. -/

/-- One entry of a zip archive (`zip.File`: its name and whether its
`FileInfo` reports a directory). -/
structure ZipEntry where
  name : String
  isDir : Bool
deriving DecidableEq

/-- The observable state of a destination directory, as consulted by
`isFetched` (part_000:159-180). -/
structure DirState where
  dirExists : Bool
  readOk : Bool
  entries : List String
  hasMarker : Bool
deriving DecidableEq

/-- Model of `isFetched` (part_000:159-180): the directory exists, can be
read, holds at least one entry, and holds the `.protodex_fetched` marker. -/
def isFetched (d : DirState) : Bool :=
  d.dirExists && d.readOk && !d.entries.isEmpty && d.hasMarker

/-- Externally visible effects of a fetch. -/
inductive FetchEff where
  | httpGet (url : String)
  | createTemp (name : String)
  | removeTemp (name : String)
  | writeFile (path : String)
  | writeMarker (dir : String)
  | symlink (target linkPath : String)
deriving DecidableEq

/-- Environment of a fetch: the outcomes the filesystem, the network and
the registry client would produce. -/
structure FetchEnv where
  /-- outcome of `http.Client.Get`: a transport failure or non-200 status
  as an error, otherwise the entry list of the downloaded zip archive -/
  get : String → Except String (List ZipEntry)
  /-- `os.CreateTemp` succeeds -/
  createTempOk : Bool
  /-- `io.Copy` of the response body into the temp file succeeds -/
  copyOk : Bool
  /-- `tempFile.Close()` succeeds -/
  closeOk : Bool
  /-- `zip.OpenReader` succeeds on the temp archive -/
  zipOk : Bool
  /-- `os.Create` of the marker file succeeds -/
  markOk : Bool
  /-- `os.Symlink` succeeds -/
  symlinkOk : Bool
  /-- `filepath.Abs` (its error path is not modelled: it is resolution
  against the working directory) -/
  abs : String → String
  /-- `os.Stat` does not report not-exist for this path -/
  pathExists : String → Bool
  /-- observable state of a directory, for `isFetched` -/
  destState : String → DirState
  /-- outcome of the registry client `PullVersion(source, version, dest)` -/
  pull : String → String → String → Except String Unit

/-- Symbolic name of the temp file produced by
`os.CreateTemp("", "protodex-download-*.zip")`. -/
def tmpName : String := "protodex-download-tmp.zip"

/-- Model of `filepath.Join` restricted to joining a directory with a
relative clean path. -/
def pathJoin (a b : String) : String := a ++ "/" ++ b

/-- Model of `Fetcher.download` (part_000:182-211).  On success it yields
the temp file name together with the archive's entries.  The temp file is
created but NOT removed on any path of this function: cleanup is deferred
to the callers, and only after a successful return. -/
def download (env : FetchEnv) (url : String) :
    Except String (String × List ZipEntry) × List FetchEff :=
  match env.get url with
  | .error e => (.error e, [.httpGet url])
  | .ok entries =>
    if !env.createTempOk then (.error "create temp failed", [.httpGet url])
    else if !env.copyOk then (.error "copy failed", [.httpGet url, .createTemp tmpName])
    else if !env.closeOk then (.error "close temp failed", [.httpGet url, .createTemp tmpName])
    else (.ok (tmpName, entries), [.httpGet url, .createTemp tmpName])

/-- Model of `extractZip` (part_000:227-280): skips directory entries and
writes every file entry under `destPath`. -/
def extractZip (env : FetchEnv) (destPath : String) (entries : List ZipEntry) :
    Except String Unit × List FetchEff :=
  if !env.zipOk then (.error "open zip failed", [])
  else
    (.ok (), entries.filterMap (fun e =>
      if e.isDir then none else some (.writeFile (pathJoin destPath e.name))))

/-- Model of `Fetcher.downloadAndExtract` (the fetcher helper embedded at
src/web/src/pages/package/push.tsx:818-834): download, then extract, with
the temp file removed by a defer that runs only when `download` returned
successfully. -/
def downloadAndExtract (env : FetchEnv) (f : Fetcher) :
    Except String Unit × List FetchEff :=
  match download env f.source with
  | (.error e, effs) => (.error ("failed to download from URL: " ++ e), effs)
  | (.ok (tmp, entries), effs) =>
    match extractZip env f.dest entries with
    | (.error e, effs2) =>
      (.error ("failed to extract zip: " ++ e), effs ++ effs2 ++ [.removeTemp tmp])
    | (.ok _, effs2) => (.ok (), effs ++ effs2 ++ [.removeTemp tmp])

/-- Model of `Fetcher.markAsFetched` (part_000:213-225). -/
def markAsFetched (env : FetchEnv) (f : Fetcher) :
    Except String Unit × List FetchEff :=
  if env.markOk then (.ok (), [.writeMarker f.dest])
  else (.error "failed to create fetched marker", [])

/-- Model of `Fetcher.urlFetch` (part_000:104-129): scheme check, the
`isFetched` short-circuit (which DOES return early here), download and
extract, and a marker write whose failure is tolerated. -/
def urlFetch (env : FetchEnv) (f : Fetcher) :
    Except String Unit × List FetchEff :=
  let parsedURL := urlParse f.source
  if parsedURL.scheme ≠ "http" && parsedURL.scheme ≠ "https" then
    (.error ("unsupported URL scheme: " ++ parsedURL.scheme), [])
  else if isFetched (env.destState f.dest) then (.ok (), [])
  else
    match downloadAndExtract env f with
    | (.error e, effs) => (.error ("failed to fetch from URL: " ++ e), effs)
    | (.ok _, effs) =>
      match markAsFetched env f with
      | (.error _, effs2) => (.ok (), effs ++ effs2)
      | (.ok _, effs2) => (.ok (), effs ++ effs2)

/-- First `/`-segment of a name: `strings.Split(name, "/")[0]`. -/
def firstSeg (s : String) : String := String.mk (takeUntilSlash s.toList)

/-- The root prefix computed by `extractGitHubZip` (github.go:96-106): the
first segment of the first non-directory entry, with `/` appended; empty
when the archive holds no file entry. -/
def rootPfxOf (entries : List ZipEntry) : String :=
  match entries.find? (fun e => !e.isDir) with
  | some e => firstSeg e.name ++ "/"
  | none => ""

/-- The relative destination paths produced by `extractGitHubZip`
(github.go:84-148): directory entries are skipped, the root prefix is
stripped, entries outside a requested subdirectory are skipped and the
subdirectory segment is stripped from the rest, and entries whose
remaining path is empty are skipped. -/
def extractGitHubZipNames (entries : List ZipEntry) (subDir : String) : List String :=
  let root := rootPfxOf entries
  entries.filterMap (fun e =>
    if e.isDir then none
    else
      let rel := sDropPfx e.name root
      if subDir ≠ "" then
        if !sHasPfx rel (subDir ++ "/") then none
        else
          let rel2 := sDropPfx rel (subDir ++ "/")
          if rel2 = "" then none else some rel2
      else if rel = "" then none else some rel)

/-- Effectful wrapper of `extractGitHubZip` (github.go:84-148). -/
def extractGitHubZipEff (env : FetchEnv) (targetDir : String)
    (entries : List ZipEntry) (subDir : String) :
    Except String Unit × List FetchEff :=
  if !env.zipOk then (.error "open zip failed", [])
  else
    (.ok (), (extractGitHubZipNames entries subDir).map
      (fun rel => .writeFile (pathJoin targetDir rel)))

/-- Model of `Fetcher.downloadAndExtractGithub` (github.go:12-82): URL
normalisation, owner/repo/subdir split, tag-or-branch download URL,
download, extraction, and temp removal deferred after a successful
download. -/
def downloadAndExtractGithub (env : FetchEnv) (f : Fetcher)
    (githubURL branch : String) : Except String Unit × List FetchEff :=
  let u1 := sDropPfx githubURL "https://"
  let u2 := sDropPfx u1 "http://"
  let u3 := sDropPfx u2 "git@"
  let u4 := sDropSfx u3 ".git"
  let u5 := if sHasPfx u4 "github.com:" then
      "github.com/" ++ String.mk (u4.toList.drop 11)
    else u4
  if !sHasPfx u5 "github.com/" then (.error ("invalid GitHub URL: " ++ u5), [])
  else
    let parts := splitSlash (sDropPfx u5 "github.com/")
    if parts.length < 2 then (.error ("invalid GitHub source format: " ++ u5), [])
    else
      let owner := parts.getD 0 ""
      let repo := parts.getD 1 ""
      let subDir := if parts.length > 2 then joinSlash (parts.drop 2) else ""
      let version := if branch = "" then "main" else branch
      let downloadVersion := sDropPfx version "v"
      let url :=
        if sHasPfx version "v" then
          "https://github.com/" ++ owner ++ "/" ++ repo ++
            "/archive/refs/tags/" ++ version ++ ".zip"
        else
          "https://github.com/" ++ owner ++ "/" ++ repo ++
            "/archive/refs/heads/" ++ downloadVersion ++ ".zip"
      match download env url with
      | (.error e, effs) => (.error e, effs)
      | (.ok (tmp, entries), effs) =>
        match extractGitHubZipEff env f.dest entries subDir with
        | (.error e, effs2) => (.error e, effs ++ effs2 ++ [.removeTemp tmp])
        | (.ok _, effs2) => (.ok (), effs ++ effs2 ++ [.removeTemp tmp])

/-- Model of `Fetcher.githubFetch` (part_000:131-157).  NOTE: at
part_000:141-143 the Go code checks `isFetched(f.Dest)` but only prints
"Source already fetched" — there is no early return, so control always
falls through to the download. -/
def githubFetch (env : FetchEnv) (f : Fetcher) :
    Except String Unit × List FetchEff :=
  let ref := if f.version = "" then "main" else f.version
  if f.source = "" then (.error "github source URL is required", [])
  else
    let gitURL := "github.com/" ++ f.source
    match downloadAndExtractGithub env f gitURL ref with
    | (.error e, effs) => (.error ("failed to fetch from GitHub: " ++ e), effs)
    | (.ok _, effs) =>
      match markAsFetched env f with
      | (.error e, effs2) => (.error ("failed to mark as fetched: " ++ e), effs ++ effs2)
      | (.ok _, effs2) => (.ok (), effs ++ effs2)

/-- Model of `Fetcher.localFetch` (part_000:67-92): resolve the source to
an absolute path, fail if it does not exist, resolve the destination, stop
as a no-op when both are equal, otherwise create a symlink. -/
def localFetch (env : FetchEnv) (f : Fetcher) :
    Except String Unit × List FetchEff :=
  let absSourcePath := env.abs f.source
  if !env.pathExists absSourcePath then
    (.error ("source path does not exist: " ++ absSourcePath), [])
  else
    let destAbsolute := env.abs f.dest
    if absSourcePath = destAbsolute then (.ok (), [])
    else if env.symlinkOk then (.ok (), [.symlink absSourcePath f.dest])
    else (.error "failed to create symlink", [])

/-- Model of `Fetcher.protodexFetch` (part_000:94-102): delegate to the
registry client. -/
def protodexFetch (env : FetchEnv) (f : Fetcher) :
    Except String Unit × List FetchEff :=
  (env.pull f.source f.version f.dest, [])

/-- Model of `Fetcher.Fetch` (part_000:50-65): dispatch on the source
type. -/
def Fetch (env : FetchEnv) (f : Fetcher) :
    Except String Unit × List FetchEff :=
  match f.sourceType with
  | .local => localFetch env f
  | .github => githubFetch env f
  | .protodex => protodexFetch env f
  | .http => urlFetch env f
  | .googleWellKnown => urlFetch env f

/-! ## DependencyCache / Resolver (src/unnamed/part_006, package dependency) -/

/-- A dependency declaration (`Config` in src/unnamed/part_008:7-13). -/
structure DepConfig where
  name : String
  type : SourceType
  source : String
  version : String
  path : String
deriving DecidableEq

/-- Environment of batch resolution: the outcome of fetching one
declaration.  `resolveDependency` (part_006:42-58) routes WellKnown
declarations to `resolveGoogleWellKnownProtos` and all others through a
`Fetcher`; both are I/O and are abstracted here as the single outcome
function of the declaration. -/
structure ResolveEnv where
  fetchDep : DepConfig → Except String Unit

/-- One step of resolution: a successful fetch populates the declaration's
cache directory `<cacheRoot>/<Name>` (modelled as appending its name to
the list of populated directories); a failure leaves the disk as it was
and nothing ever removes an already populated directory. -/
def resolveDependency (env : ResolveEnv) (dep : DepConfig) (disk : List String) :
    Except String Unit × List String :=
  match env.fetchDep dep with
  | .ok _ => (.ok (), disk ++ [dep.name])
  | .error e => (.error e, disk)

/-- Model of `ResolveDependencies` (part_006:31-40): sequential iteration
in list order, stopping at the first failure and wrapping the failing
declaration's name.  Returns the result, the final disk state, and the
ordered list of declaration names that were attempted. -/
def ResolveDependencies (env : ResolveEnv) (deps : List DepConfig)
    (disk : List String) : Except String Unit × List String × List String :=
  match deps with
  | [] => (.ok (), disk, [])
  | d :: ds =>
    match resolveDependency env d disk with
    | (.ok _, diskAfter) =>
      let rest := ResolveDependencies env ds diskAfter
      (rest.1, rest.2.1, d.name :: rest.2.2)
    | (.error e, diskAfter) =>
      (.error ("failed to resolve dependency " ++ d.name ++ ": " ++ e),
        diskAfter, [d.name])

/-- One entry returned by `os.ReadDir`. -/
structure DirEntry where
  name : String
  isDir : Bool
deriving DecidableEq

/-- Outcome of `os.ReadDir` on the cache root. -/
inductive ReadDirRes where
  | notExist
  | failed (e : String)
  | ok (entries : List DirEntry)
deriving DecidableEq

/-- Model of `Resolver.ListCached` (part_006:83-100): a missing cache root
yields an empty list and no error, any other read failure is returned, and
otherwise the names of the directory entries (in listing order) are
returned, skipping non-directories. -/
def ListCached (r : ReadDirRes) : Except String (List String) :=
  match r with
  | .notExist => .ok []
  | .failed e => .error e
  | .ok es => .ok ((es.filter (fun e => e.isDir)).map (fun e => e.name))

/-! ## ToolchainManager (src/internal/protoc and src/internal/manager) -/

/-- The `CustomPlugin` struct (plugin.go:10-16).  Go's
`map[string]string` options are modelled as an association list in the
order the iteration happens to visit them (the spec notes the order is not
significant: each entry is an independent flag). -/
structure CustomPlugin where
  name : String
  command : String
  outputDir : String
  options : List (String × String)
  required : Bool
deriving DecidableEq

/-- Environment of the toolchain: which executables resolve on the search
path, whether the per-language base plugins can be ensured (checks plus
possible installs, plugin.go:67-205), and whether the compiler binary can
be ensured (protoc.go:26-46). -/
structure ProtocEnv where
  lookPath : String → Bool
  ensureLangOk : String → Bool
  ensureProtocOk : Bool

/-- The custom-plugin loop of `PluginManager.Process` (plugin.go:43-59):
a missing command fails the call when the plugin is required and skips the
plugin with a warning otherwise; a present plugin defaults its empty
output directory to the language's and contributes its `_out` flag
followed by one flag per option entry. -/
def processPlugins (env : ProtocEnv) (outputDir : String) :
    List CustomPlugin → Except String (List String)
  | [] => .ok []
  | p :: ps =>
    if !env.lookPath p.command then
      if p.required then .error ("failed to ensure custom plugin " ++ p.name)
      else processPlugins env outputDir ps
    else
      let od := if p.outputDir = "" then outputDir else p.outputDir
      let flags := ("--" ++ p.name ++ "_out=" ++ od) ::
        p.options.map (fun kv => "--" ++ kv.1 ++ "=" ++ kv.2)
      (processPlugins env outputDir ps).map (fun rest => flags ++ rest)

/-- Model of `PluginManager.Process` (plugin.go:31-62): ensure the base
language plugins, emit the base `--<language>_out` flag, then run the
custom-plugin loop. -/
def Process (env : ProtocEnv) (language outputDir : String)
    (customPlugins : List CustomPlugin) : Except String (List String) :=
  if !env.ensureLangOk language then
    .error ("failed to ensure language plugins for " ++ language)
  else
    (processPlugins env outputDir customPlugins).map
      (fun rest => ("--" ++ language ++ "_out=" ++ outputDir) :: rest)

/-- The `GenerateOptions` struct (generator.go:7-11). -/
structure GenerateOptions where
  projectPath : String
  options : List (String × String)
  customPlugins : List CustomPlugin
deriving DecidableEq

/-- The `Executor` struct (protoc.go:10-14). -/
structure Executor where
  version : String
  protocPath : String
  depsPath : String
deriving DecidableEq

/-- Model of `Executor.Run` (protoc.go:48-69): the final argument vector
handed to the spawned compiler process — a `--proto_path=<depsPath>` flag
first when the dependency cache path is non-empty, then the caller's
arguments, then the proto files last. -/
def Run (env : ProtocEnv) (e : Executor) (protoFiles : List String)
    (args : List String) : Except String (List String) :=
  if !env.ensureProtocOk then .error "protoc not available"
  else
    .ok ((if e.depsPath ≠ "" then ["--proto_path=" ++ e.depsPath] else []) ++
      args ++ protoFiles)

/-- Model of `Executor.GenerateCode` (generator.go:13-38): plugin args
first, then `--proto_path=<projectPath>`, then one flag per additional
option, handed to `Run`. -/
def GenerateCode (env : ProtocEnv) (e : Executor) (language : String)
    (protoFiles : List String) (outputDir : String)
    (options : GenerateOptions) : Except String (List String) :=
  if !env.ensureProtocOk then .error "protoc not available"
  else
    match Process env language outputDir options.customPlugins with
    | .error err => .error ("failed to process plugins: " ++ err)
    | .ok pluginArgs =>
      let args := pluginArgs ++ ["--proto_path=" ++ options.projectPath] ++
        options.options.map (fun kv => "--" ++ kv.1 ++ "=" ++ kv.2)
      Run env e protoFiles args

/-- The `PluginConfig` struct (config.go:56-62). -/
structure PluginConfig where
  name : String
  command : String
  options : List (String × String)
  outputDir : String
  required : Bool
deriving DecidableEq

/-- The `LanguageConfig` struct (config.go:64-69). -/
structure LanguageConfig where
  name : String
  outputDir : String
  options : List (String × String)
  plugins : List PluginConfig
deriving DecidableEq

/-- The fields of `ProjectConfig` (config.go:10-16) that plugin merging
consults: the per-language configurations and the global plugin list. -/
structure ProjectConfig where
  languages : List LanguageConfig
  plugins : List PluginConfig
deriving DecidableEq

/-- Model of `ProjectConfig.GetLanguage` (config.go:18-25): the first
language configuration with the requested name. -/
def GetLanguage (pc : ProjectConfig) (lang : String) : Option LanguageConfig :=
  pc.languages.find? (fun l => l.name = lang)

/-- Model of `ProjectConfig.GetAllPlugins` (config.go:27-40): global
plugins first, then the language-specific ones. -/
def GetAllPlugins (pc : ProjectConfig) (lang : String) : List PluginConfig :=
  pc.plugins ++
    (match GetLanguage pc lang with
     | some l => l.plugins
     | none => [])

/-- The conversion from configuration plugins to protoc plugins performed
by `Manager.Generate` (src/unnamed/part_012:143-152). -/
def toCustomPlugin (p : PluginConfig) : CustomPlugin :=
  { name := p.name, command := p.command, outputDir := p.outputDir
    options := p.options, required := p.required }

/-! ## Claim-side formalizations and concrete instances -/

/-- Formalization of the C7 spec sentence, written from the spec's words
for comparison with `extractGitHubZipNames`: strip the single top-level
directory `top` from every entry, skip directory entries, keep only
entries under the requested subdirectory (when one is given) re-rooted
without the subdirectory segment, and drop entries whose remaining path is
empty. -/
def specGithubExtract (top subDir : String) (entries : List ZipEntry) : List String :=
  entries.filterMap (fun e =>
    if e.isDir then none
    else
      let stripped := String.mk (e.name.data.drop (top.length + 1))
      if subDir ≠ "" then
        if !sHasPfx stripped (subDir ++ "/") then none
        else
          let rerooted := String.mk (stripped.data.drop (subDir.length + 1))
          if rerooted = "" then none else some rerooted
      else if stripped = "" then none else some stripped)

/-- Trace predicate: the effect is an HTTP request. -/
def isHttpGet : FetchEff → Bool
  | .httpGet _ => true
  | _ => false

/-- Trace predicate: the effect writes a file. -/
def isWriteFile : FetchEff → Bool
  | .writeFile _ => true
  | _ => false

/-- An environment in which every external operation succeeds, the network
serves a one-file archive, and every destination directory is populated
and carries the fetched marker. -/
def okEnv : FetchEnv where
  get := fun _ => .ok [{ name := "repo-main/a.proto", isDir := false }]
  createTempOk := true
  copyOk := true
  closeOk := true
  zipOk := true
  markOk := true
  symlinkOk := true
  abs := fun s => s
  pathExists := fun _ => true
  destState := fun _ =>
    { dirExists := true, readOk := true
      entries := ["a.proto", ".protodex_fetched"], hasMarker := true }
  pull := fun _ _ _ => .ok ()

/-- An HTTP fetcher aimed at a marked destination. -/
def httpFetcherC : Fetcher :=
  { sourceType := .http, source := "https://example.com/schemas.zip"
    version := "", dest := "destdir" }

/-- A GitHub fetcher aimed at a marked destination. -/
def ghFetcherC : Fetcher :=
  { sourceType := .github, source := "acme/schemas"
    version := "v1.0.0", dest := "destdir" }

/-- A local fetcher whose source and destination are the same path. -/
def localSameFetcherC : Fetcher :=
  { sourceType := .local, source := "p", version := "", dest := "p" }

/-- Declarations for the batch-resolution witness: the middle one fails. -/
def depGoodC : DepConfig :=
  { name := "valid-local-dep", type := .local, source := "./a", version := "", path := "" }

/-- The failing declaration of the batch-resolution witness. -/
def depBadC : DepConfig :=
  { name := "invalid-local-dep", type := .local, source := "./missing", version := "", path := "" }

/-- A declaration after the failure, never attempted. -/
def depLaterC : DepConfig :=
  { name := "later-dep", type := .github, source := "acme/x", version := "", path := "" }

/-- Resolution environment in which exactly `depBadC` fails. -/
def resolveEnvC : ResolveEnv :=
  { fetchDep := fun d => if d.name = "invalid-local-dep" then .error "boom" else .ok () }

/-- Toolchain environment in which every executable resolves. -/
def protocEnvOk : ProtocEnv :=
  { lookPath := fun _ => true, ensureLangOk := fun _ => true, ensureProtocOk := true }

/-- Toolchain environment in which no plugin command resolves. -/
def protocEnvMissing : ProtocEnv :=
  { lookPath := fun _ => false, ensureLangOk := fun _ => true, ensureProtocOk := true }

/-- A concrete executor with a non-empty dependency cache path. -/
def execC : Executor := { version := "32.0", protocPath := "protoc", depsPath := "CACHE" }

/-- A required custom plugin with an empty output directory. -/
def twirpPluginC : CustomPlugin :=
  { name := "twirp", command := "protoc-gen-twirp", outputDir := ""
    options := [], required := true }

/-- An optional custom plugin. -/
def optPluginC : CustomPlugin :=
  { name := "gateway", command := "protoc-gen-grpc-gateway", outputDir := ""
    options := [("logtostderr", "true")], required := false }

/-- Generation options carrying one required custom plugin. -/
def genOptsC : GenerateOptions :=
  { projectPath := "PROJ", options := [], customPlugins := [twirpPluginC] }

/-- The all-success environment with an unmarked, empty destination and a
body copy that fails: the download succeeds over the network but
`io.Copy` into the temp file errors. -/
def c8LeakEnv : FetchEnv :=
  { okEnv with
    copyOk := false
    destState := fun _ =>
      { dirExists := false, readOk := false, entries := [], hasMarker := false } }

/-- The all-success environment with a missing source path, for the local
fetch counterexample. -/
def c6MissingEnv : FetchEnv := { okEnv with pathExists := fun _ => false }

/-- The release-tag download URL that `downloadAndExtractGithub` builds
for `github.com/acme/schemas` at ref `v1.0.0` (github.go:56-58). -/
def ghTagURL : String :=
  "https://github.com/acme/schemas/archive/refs/tags/v1.0.0.zip"

/-- A GitHub archive whose entries all sit under one top-level directory,
with a `proto` subdirectory. -/
def ghEntriesC : List ZipEntry :=
  [ { name := "repo-v1.2.0/proto/a.proto", isDir := false }
  , { name := "repo-v1.2.0/readme.md", isDir := false }
  , { name := "repo-v1.2.0/proto/sub/", isDir := true }
  , { name := "repo-v1.2.0/proto/sub/b.proto", isDir := false } ]

/-! ## Helper lemmas on the string primitives -/

theorem mk_toList (s : String) : String.mk s.toList = s := rfl

theorem toList_mk (l : List Char) : (String.mk l).toList = l := rfl

theorem hasPfx_nil (l : List Char) : hasPfx l [] = true := by
  cases l <;> rfl

theorem hasPfx_append (p t : List Char) : hasPfx (p ++ t) p = true := by
  induction p with
  | nil => simp [hasPfx_nil]
  | cons c cs ih => simp [hasPfx, ih]

theorem eq_append_of_hasPfx {l p : List Char} (h : hasPfx l p = true) :
    ∃ t, l = p ++ t := by
  induction p generalizing l with
  | nil => exact ⟨l, rfl⟩
  | cons c cs ih =>
    cases l with
    | nil => simp [hasPfx] at h
    | cons d ds =>
      simp only [hasPfx, Bool.and_eq_true, decide_eq_true_eq] at h
      obtain ⟨t, ht⟩ := ih h.2
      exact ⟨t, by simp [h.1, ht]⟩

theorem dropPfx_append (p t : List Char) : dropPfx (p ++ t) p = t := by
  simp [dropPfx, hasPfx_append]

theorem dropPfx_of_hasPfx {l p : List Char} (h : hasPfx l p = true) :
    dropPfx l p = l.drop p.length := by
  simp [dropPfx, h]

theorem splitLastAtAux_eq_none {l : List Char} (h : '@' ∉ l) :
    splitLastAtAux l = none := by
  induction l with
  | nil => rfl
  | cons c cs ih =>
    rw [List.mem_cons] at h
    push_neg at h
    simp [splitLastAtAux, ih h.2, Ne.symm h.1]

theorem splitLastAtAux_append {l₂ : List Char} (l₁ : List Char) (h : '@' ∉ l₂) :
    splitLastAtAux (l₁ ++ '@' :: l₂) = some (l₁, l₂) := by
  induction l₁ with
  | nil => simp [splitLastAtAux, splitLastAtAux_eq_none h]
  | cons c cs ih => simp [splitLastAtAux, ih]

theorem splitSchemeSepAux_append {l₂ : List Char} (l₁ : List Char) (h : ':' ∉ l₁) :
    splitSchemeSepAux (l₁ ++ ':' :: '/' :: '/' :: l₂) = some (l₁, l₂) := by
  induction l₁ with
  | nil => simp [splitSchemeSepAux]
  | cons c cs ih =>
    rw [List.mem_cons] at h
    push_neg at h
    simp [splitSchemeSepAux, Ne.symm h.1, ih h.2]

theorem takeUntilSlash_append {l₁ : List Char} (l₂ : List Char) (h : '/' ∉ l₁) :
    takeUntilSlash (l₁ ++ '/' :: l₂) = l₁ := by
  induction l₁ with
  | nil => simp [takeUntilSlash]
  | cons c cs ih =>
    rw [List.mem_cons] at h
    push_neg at h
    simp [takeUntilSlash, Ne.symm h.1, ih h.2]

theorem splitSlashAux_ne_nil (l : List Char) : splitSlashAux l ≠ [] := by
  cases l with
  | nil => simp [splitSlashAux]
  | cons c cs =>
    simp only [splitSlashAux]
    by_cases hc : c = '/'
    · simp [hc]
    · simp only [hc, if_false, reduceIte]
      cases splitSlashAux cs <;> simp

theorem splitSlashAux_append {l₁ : List Char} (l₂ : List Char) (h : '/' ∉ l₁) :
    splitSlashAux (l₁ ++ '/' :: l₂) = l₁ :: splitSlashAux l₂ := by
  induction l₁ with
  | nil => simp [splitSlashAux]
  | cons c cs ih =>
    rw [List.mem_cons] at h
    push_neg at h
    rw [List.cons_append]
    simp only [splitSlashAux, Ne.symm h.1, if_false, reduceIte, ih h.2]

theorem joinSlashAux_cons (x : List Char) (xs : List (List Char)) (h : xs ≠ []) :
    joinSlashAux (x :: xs) = x ++ '/' :: joinSlashAux xs := by
  cases xs with
  | nil => exact absurd rfl h
  | cons y ys => rfl

theorem joinSlashAux_cons_head (c : Char) (p : List Char) (ps : List (List Char)) :
    joinSlashAux ((c :: p) :: ps) = c :: joinSlashAux (p :: ps) := by
  cases ps <;> rfl

theorem joinSlashAux_splitSlashAux (l : List Char) :
    joinSlashAux (splitSlashAux l) = l := by
  induction l with
  | nil => rfl
  | cons c cs ih =>
    simp only [splitSlashAux]
    by_cases hc : c = '/'
    · subst hc
      simp only [if_true, reduceIte]
      rw [joinSlashAux_cons _ _ (splitSlashAux_ne_nil cs), ih]
      rfl
    · simp only [hc, if_false, reduceIte]
      cases hs : splitSlashAux cs with
      | nil => exact absurd hs (splitSlashAux_ne_nil cs)
      | cons p ps =>
        rw [hs] at ih
        rw [joinSlashAux_cons_head, ih]

theorem toList_append (s t : String) : (s ++ t).toList = s.toList ++ t.toList := by
  simp [String.toList, String.data_append]

theorem joinSlash_map_mk (xs : List (List Char)) :
    joinSlash (xs.map String.mk) = String.mk (joinSlashAux xs) := by
  unfold joinSlash
  have hcomp : String.toList ∘ String.mk = id := rfl
  rw [List.map_map, hcomp, List.map_id]

theorem urlParse_append (sch host rest : String)
    (hsch : ':' ∉ sch.toList) (hhost : '/' ∉ host.toList) :
    urlParse (sch ++ "://" ++ host ++ "/" ++ rest) =
      { scheme := sch, host := host, path := "/" ++ rest } := by
  have h1 : ("://" : String).toList = [':', '/', '/'] := rfl
  have h2 : ("/" : String).toList = ['/'] := rfl
  have hbase : (sch ++ "://" ++ host ++ "/" ++ rest).toList =
      sch.toList ++ ':' :: '/' :: '/' :: (host.toList ++ '/' :: rest.toList) := by
    simp [toList_append, h1, h2]
  have hs : splitSchemeSep (sch ++ "://" ++ host ++ "/" ++ rest) =
      some (sch, String.mk (host.toList ++ '/' :: rest.toList)) := by
    unfold splitSchemeSep
    rw [hbase, splitSchemeSepAux_append _ hsch]
    simp [mk_toList]
  unfold urlParse
  rw [hs]
  simp only [toList_mk]
  rw [splitSlashAux_append _ hhost]
  cases ht : splitSlashAux rest.toList with
  | nil => exact absurd ht (splitSlashAux_ne_nil rest.toList)
  | cons a as =>
    simp only [List.isEmpty_cons, mk_toList]
    have hjoin : joinSlash ((a :: as).map String.mk) = rest := by
      rw [joinSlash_map_mk, ← ht, joinSlashAux_splitSlashAux, mk_toList]
    simp only [List.map_cons] at hjoin
    simp [hjoin]

/-! ## C5 — source parsing -/

/-- **C5**: `ParseSource` splits the version off at the rightmost `@`,
classifies by the URI scheme of the pre-version portion, and sets the
locator to the URI host concatenated with its path; in particular
`Parse("github://acme/schemas@v1.2.0")` yields type GitHubRepo, locator
`acme/schemas` and version `v1.2.0`; and when no explicit version is
present the type-dependent default applies: `main` for GitHub, `latest`
for the registry, empty for all others.  The general conjuncts quantify
over every well-formed `scheme://host/rest[@ver]` reference (scheme
without `:` or `@`, host without `/`, version without `@`, and not
shaped like a local path or a `file://` reference). -/
theorem c5_parse_source (sch host rest ver : String) (ty : SourceType)
    (hty : schemeToType sch = some ty)
    (hsch : ':' ∉ sch.toList) (hschAt : '@' ∉ sch.toList)
    (hhost : '/' ∉ host.toList) (hhostAt : '@' ∉ host.toList)
    (hrestAt : '@' ∉ rest.toList)
    (hverAt : '@' ∉ ver.toList) (hverNe : ver ≠ "")
    (hfile1 : sHasPfx (sch ++ "://" ++ host ++ "/" ++ rest ++ "@" ++ ver) "file://" = false)
    (hlocal1 : isLocalPath (sch ++ "://" ++ host ++ "/" ++ rest ++ "@" ++ ver) = false)
    (hfile2 : sHasPfx (sch ++ "://" ++ host ++ "/" ++ rest) "file://" = false)
    (hlocal2 : isLocalPath (sch ++ "://" ++ host ++ "/" ++ rest) = false) :
    (ParseSource "github://acme/schemas@v1.2.0" =
      .ok { type := .github, source := "acme/schemas", version := "v1.2.0",
            raw := "github://acme/schemas@v1.2.0" }) ∧
    ((ParseSource "github://acme/schemas").map SourceInfo.version = .ok "main") ∧
    ((ParseSource "protodex://svc").map SourceInfo.version = .ok "latest") ∧
    ((ParseSource "https://example.com/a.zip").map SourceInfo.version = .ok "") ∧
    (ParseSource (sch ++ "://" ++ host ++ "/" ++ rest ++ "@" ++ ver) =
      .ok { type := ty, source := host ++ "/" ++ rest, version := ver,
            raw := sch ++ "://" ++ host ++ "/" ++ rest ++ "@" ++ ver }) ∧
    (ParseSource (sch ++ "://" ++ host ++ "/" ++ rest) =
      .ok { type := ty, source := host ++ "/" ++ rest, version := getDefaultVersion ty,
            raw := sch ++ "://" ++ host ++ "/" ++ rest }) := by
  have hat : ("@" : String).toList = ['@'] := rfl
  have hschNe : sch ≠ "" := by
    intro h
    rw [h] at hty
    rw [show schemeToType "" = none from rfl] at hty
    exact Option.noConfusion hty
  have h1 : ("://" : String).toList = [':', '/', '/'] := rfl
  have h2 : ("/" : String).toList = ['/'] := rfl
  have hbaseL : (sch ++ "://" ++ host ++ "/" ++ rest).toList =
      sch.toList ++ ':' :: '/' :: '/' :: (host.toList ++ '/' :: rest.toList) := by
    simp [toList_append, h1, h2]
  have hfullL : (sch ++ "://" ++ host ++ "/" ++ rest ++ "@" ++ ver).toList =
      (sch ++ "://" ++ host ++ "/" ++ rest).toList ++ '@' :: ver.toList := by
    simp [toList_append, hat]
  have hfullNe : (sch ++ "://" ++ host ++ "/" ++ rest ++ "@" ++ ver) ≠ "" := by
    intro h
    rw [h] at hlocal1
    exact absurd hlocal1 (by decide)
  have hbaseNe : (sch ++ "://" ++ host ++ "/" ++ rest) ≠ "" := by
    intro h
    rw [h] at hlocal2
    exact absurd hlocal2 (by decide)
  have hsplit : splitLastAt (sch ++ "://" ++ host ++ "/" ++ rest ++ "@" ++ ver) =
      some (sch ++ "://" ++ host ++ "/" ++ rest, ver) := by
    unfold splitLastAt
    rw [hfullL, splitLastAtAux_append _ hverAt]
    rfl
  have hbaseAt : '@' ∉ (sch ++ "://" ++ host ++ "/" ++ rest).toList := by
    rw [hbaseL]
    simp
    exact ⟨hschAt, hhostAt, hrestAt⟩
  have hsplitBase : splitLastAt (sch ++ "://" ++ host ++ "/" ++ rest) = none := by
    unfold splitLastAt
    rw [splitLastAtAux_eq_none hbaseAt]
    rfl
  have hurl := urlParse_append sch host rest hsch hhost
  refine ⟨by decide, by decide, by decide, by decide, ?_, ?_⟩
  · simp only [ParseSource, hfullNe, if_false, reduceIte, hfile1, Bool.false_eq_true,
      hlocal1, hsplit, hurl]
    simp [hschNe, hty, hverNe, String.append_assoc]
  · simp only [ParseSource, hbaseNe, if_false, reduceIte, hfile2, Bool.false_eq_true,
      hlocal2, hsplitBase, hurl]
    simp [hschNe, hty, String.append_assoc]

/-- Witness for C5: the theorem applied to the concrete reference
`github://acme/schemas@v1.2.0`. -/
theorem c5_parse_source_witness :
    ParseSource ("github" ++ "://" ++ "acme" ++ "/" ++ "schemas" ++ "@" ++ "v1.2.0") =
      .ok { type := .github, source := "acme" ++ "/" ++ "schemas", version := "v1.2.0",
            raw := "github" ++ "://" ++ "acme" ++ "/" ++ "schemas" ++ "@" ++ "v1.2.0" } :=
  (c5_parse_source "github" "acme" "schemas" "v1.2.0" .github (by decide) (by decide)
    (by decide) (by decide) (by decide) (by decide) (by decide) (by decide) (by decide)
    (by decide) (by decide) (by decide)).2.2.2.2.1

/-! ## C1 — marker-file idempotency of HTTP and GitHub fetches -/

/-- **C1**: with a populated, marker-carrying destination, the HTTP fetch
returns success with no network request and no effect at all, but the
GitHub fetch — in the same situation — still issues an HTTP request and
still writes into the destination: the `isFetched` check at
part_000:141-143 only prints a message and never returns, so the claimed
GitHub half of the idempotency property does not hold on the code. -/
theorem c1_github_marker_still_downloads :
    isFetched (okEnv.destState httpFetcherC.dest) = true ∧
    urlFetch okEnv httpFetcherC = (.ok (), []) ∧
    isFetched (okEnv.destState ghFetcherC.dest) = true ∧
    (githubFetch okEnv ghFetcherC).2.any isHttpGet = true ∧
    (githubFetch okEnv ghFetcherC).2.any isWriteFile = true ∧
    (githubFetch okEnv ghFetcherC).1 = .ok () := by decide

/-! ## C6 — local fetch -/

/-- Counterexample to **C6** as stated: for a local fetch whose source and
destination resolve to the SAME absolute path, the claim predicts a no-op
success, but when that path does not exist the code fails with the
source-not-found error — `localFetch` checks existence (part_000:73-75)
before comparing the two absolute paths (part_000:83-85). -/
theorem c6_counterexample :
    c6MissingEnv.abs localSameFetcherC.source = c6MissingEnv.abs localSameFetcherC.dest ∧
    localFetch c6MissingEnv localSameFetcherC =
      (.error "source path does not exist: p", []) := by decide

/-- **C6** (amended): a local fetch resolves the source to an absolute
path and fails with a source-not-found error whenever that path does not
exist — even when source and destination coincide; when the source exists,
equal absolute paths give a no-op success, and distinct paths produce a
symbolic link at the destination pointing to the absolute source. -/
theorem c6_local_fetch_amended (env : FetchEnv) (f : Fetcher) :
    (env.pathExists (env.abs f.source) = false →
      localFetch env f =
        (.error ("source path does not exist: " ++ env.abs f.source), [])) ∧
    (env.pathExists (env.abs f.source) = true → env.abs f.source = env.abs f.dest →
      localFetch env f = (.ok (), [])) ∧
    (env.pathExists (env.abs f.source) = true → env.abs f.source ≠ env.abs f.dest →
      env.symlinkOk = true →
      localFetch env f = (.ok (), [.symlink (env.abs f.source) f.dest])) := by
  refine ⟨fun h => ?_, fun h heq => ?_, fun h hne hs => ?_⟩
  · simp [localFetch, h]
  · simp [localFetch, h, ← heq]
  · simp [localFetch, h, hne, hs]

/-- Witness for C6 (amended): both the missing-source failure and the
same-path no-op at concrete inputs. -/
theorem c6_local_fetch_amended_witness :
    localFetch c6MissingEnv localSameFetcherC =
      (.error ("source path does not exist: " ++ "p"), []) ∧
    localFetch okEnv localSameFetcherC = (.ok (), []) :=
  ⟨(c6_local_fetch_amended c6MissingEnv localSameFetcherC).1 rfl,
   (c6_local_fetch_amended okEnv localSameFetcherC).2.1 rfl rfl⟩

/-! ## C8 — temp-file cleanup -/

/-- Counterexample to **C8** as stated: when copying the response body
into the temp file fails, the whole HTTP fetch returns an error while the
created temp file is never removed — `download` (part_000:199-210) has no
cleanup of its own, and the callers' deferred removal only runs after
`download` has returned successfully. -/
theorem c8_counterexample :
    FetchEff.createTemp tmpName ∈ (urlFetch c8LeakEnv httpFetcherC).2 ∧
    FetchEff.removeTemp tmpName ∉ (urlFetch c8LeakEnv httpFetcherC).2 ∧
    (urlFetch c8LeakEnv httpFetcherC).1 =
      .error "failed to fetch from URL: failed to download from URL: copy failed" := by
  decide

/-- **C8** (amended): the deferred cleanup in `downloadAndExtract` and
`downloadAndExtractGithub` removes the temp file before returning whenever
`download` itself succeeded — on the success path and on the
extraction-failure path alike — but when `download` fails after creating
the temp file (a body-copy failure or a temp-close failure), the temp file
is NOT removed and leaks. -/
theorem c8_temp_cleanup_amended (env : FetchEnv) (f : Fetcher) (es : List ZipEntry) :
    (env.get f.source = .ok es → env.createTempOk = true → env.copyOk = false →
      downloadAndExtract env f =
        (.error "failed to download from URL: copy failed",
         [.httpGet f.source, .createTemp tmpName])) ∧
    (env.get f.source = .ok es → env.createTempOk = true → env.copyOk = true →
      env.closeOk = false →
      downloadAndExtract env f =
        (.error "failed to download from URL: close temp failed",
         [.httpGet f.source, .createTemp tmpName])) ∧
    (env.get f.source = .ok es → env.createTempOk = true → env.copyOk = true →
      env.closeOk = true →
      downloadAndExtract env f =
        ((extractZip env f.dest es).1.mapError (fun e2 => "failed to extract zip: " ++ e2),
         [.httpGet f.source, .createTemp tmpName] ++
           (extractZip env f.dest es).2 ++ [.removeTemp tmpName])) ∧
    (env.get ghTagURL = .ok es → env.createTempOk = true → env.copyOk = false →
      downloadAndExtractGithub env f "github.com/acme/schemas" "v1.0.0" =
        (.error "copy failed", [.httpGet ghTagURL, .createTemp tmpName])) ∧
    (env.get ghTagURL = .ok es → env.createTempOk = true → env.copyOk = true →
      env.closeOk = true →
      downloadAndExtractGithub env f "github.com/acme/schemas" "v1.0.0" =
        ((extractGitHubZipEff env f.dest es "").1,
         [.httpGet ghTagURL, .createTemp tmpName] ++
           (extractGitHubZipEff env f.dest es "").2 ++ [.removeTemp tmpName])) := by
  have hred : downloadAndExtractGithub env f "github.com/acme/schemas" "v1.0.0" =
      (match download env ghTagURL with
       | (.error e, effs) => (.error e, effs)
       | (.ok (tmp, entries), effs) =>
         match extractGitHubZipEff env f.dest entries "" with
         | (.error e, effs2) => (.error e, effs ++ effs2 ++ [.removeTemp tmp])
         | (.ok _, effs2) => (.ok (), effs ++ effs2 ++ [.removeTemp tmp])) := rfl
  refine ⟨fun hg hct hcp => ?_, fun hg hct hcp hcl => ?_, fun hg hct hcp hcl => ?_,
    fun hg hct hcp => ?_, fun hg hct hcp hcl => ?_⟩
  · simp [downloadAndExtract, download, hg, hct, hcp]
  · simp [downloadAndExtract, download, hg, hct, hcp, hcl]
  · rcases hx : extractZip env f.dest es with ⟨r, effs2⟩
    cases r with
    | error e2 => simp [downloadAndExtract, download, hg, hct, hcp, hcl, hx, Except.mapError]
    | ok u => simp [downloadAndExtract, download, hg, hct, hcp, hcl, hx, Except.mapError]
  · rw [hred]
    simp [download, hg, hct, hcp]
  · rw [hred]
    rcases hx : extractGitHubZipEff env f.dest es "" with ⟨r, effs2⟩
    cases r with
    | error e2 => simp [download, hg, hct, hcp, hcl, hx, Except.mapError]
    | ok u => simp [download, hg, hct, hcp, hcl, hx, Except.mapError]

/-- Witness for C8 (amended): the success path at a concrete environment,
showing the trace ends with the temp removal. -/
theorem c8_temp_cleanup_amended_witness :
    downloadAndExtract okEnv httpFetcherC =
      ((extractZip okEnv httpFetcherC.dest [{ name := "repo-main/a.proto", isDir := false }]).1.mapError
        (fun e2 => "failed to extract zip: " ++ e2),
       [.httpGet httpFetcherC.source, .createTemp tmpName] ++
         (extractZip okEnv httpFetcherC.dest [{ name := "repo-main/a.proto", isDir := false }]).2 ++
         [.removeTemp tmpName]) :=
  (c8_temp_cleanup_amended okEnv httpFetcherC
    [{ name := "repo-main/a.proto", isDir := false }]).2.2.1 rfl rfl rfl rfl

/-! ## C9 — default destination of the local fetcher -/

/-- **C9**: constructing a fetcher for a Local source with an empty
destination defaults the destination to the source string, so a
subsequent `Fetch` succeeds as a same-path no-op whenever the source path
exists; every other source type keeps the destination exactly as given. -/
theorem c9_local_default_dest (env : FetchEnv) (ty : SourceType) (source version dest : String) :
    (NewFetcher .local source version "").dest = source ∧
    (env.pathExists (env.abs source) = true →
      Fetch env (NewFetcher .local source version "") = (.ok (), [])) ∧
    (ty ≠ .local → (NewFetcher ty source version dest).dest = dest) := by
  refine ⟨by simp [NewFetcher, goOr], fun h => ?_, fun h => ?_⟩
  · simp [Fetch, NewFetcher, goOr, localFetch, h]
  · simp [NewFetcher, h]

/-- Witness for C9: the defaulted-destination no-op fetch and an
unchanged destination for a GitHub fetcher, at concrete inputs. -/
theorem c9_local_default_dest_witness :
    Fetch okEnv (NewFetcher .local "p" "" "") = (.ok (), []) ∧
    (NewFetcher .github "acme/schemas" "v1" "d").dest = "d" :=
  ⟨(c9_local_default_dest okEnv .github "p" "" "d").2.1 rfl,
   (c9_local_default_dest okEnv .github "acme/schemas" "v1" "d").2.2 (by decide)⟩

/-! ## C2 — compiler argument ordering -/

/-- Counterexample to **C2** as stated: in the assembled vector the
`--proto_path=PROJ` (project path) flag appears AFTER the plugin output
flag `--twirp_out=out` — `GenerateCode` (generator.go:30-31) appends the
plugin args first and the project proto_path after them; only the
dependency-cache proto_path is prepended (protoc.go:56-58). -/
theorem c2_counterexample :
    GenerateCode protocEnvOk execC "go" ["a.proto"] "out" genOptsC =
      .ok ["--proto_path=CACHE", "--go_out=out", "--twirp_out=out",
           "--proto_path=PROJ", "a.proto"] ∧
    List.findIdx (fun s => s = "--twirp_out=out")
        ["--proto_path=CACHE", "--go_out=out", "--twirp_out=out",
         "--proto_path=PROJ", "a.proto"] <
      List.findIdx (fun s => s = "--proto_path=PROJ")
        ["--proto_path=CACHE", "--go_out=out", "--twirp_out=out",
         "--proto_path=PROJ", "a.proto"] := by
  decide

/-- **C2** (amended): the assembled compiler argument vector places the
`--proto_path=<cachePath>` flag (present exactly when the dependency
cache path is non-empty) first, ahead of all plugin flags; the
`--proto_path=<projectPath>` flag follows the plugin flags and precedes
the additional option flags; and the proto file paths are appended last,
after every flag. -/
theorem c2_arg_order_amended (env : ProtocEnv) (e : Executor) (language : String)
    (protoFiles : List String) (outputDir : String) (gopts : GenerateOptions)
    (pluginArgs : List String)
    (henv : env.ensureProtocOk = true)
    (hp : Process env language outputDir gopts.customPlugins = .ok pluginArgs) :
    GenerateCode env e language protoFiles outputDir gopts =
      .ok ((if e.depsPath ≠ "" then ["--proto_path=" ++ e.depsPath] else []) ++
        pluginArgs ++ ["--proto_path=" ++ gopts.projectPath] ++
        gopts.options.map (fun kv => "--" ++ kv.1 ++ "=" ++ kv.2) ++ protoFiles) := by
  simp [GenerateCode, henv, hp, Run, List.append_assoc]

/-- Witness for C2 (amended): the decomposition at a concrete call. -/
theorem c2_arg_order_amended_witness :
    GenerateCode protocEnvOk execC "go" ["a.proto"] "out" genOptsC =
      .ok ((if execC.depsPath ≠ "" then ["--proto_path=" ++ execC.depsPath] else []) ++
        ["--go_out=out", "--twirp_out=out"] ++ ["--proto_path=" ++ genOptsC.projectPath] ++
        genOptsC.options.map (fun kv => "--" ++ kv.1 ++ "=" ++ kv.2) ++ ["a.proto"]) :=
  c2_arg_order_amended protocEnvOk execC "go" ["a.proto"] "out" genOptsC
    ["--go_out=out", "--twirp_out=out"] rfl (by decide)

/-! ## C3 — fail-fast batch resolution -/

/-- **C3**: batch resolution processes the declarations sequentially in
list order; the first failing declaration aborts the batch with an error
wrapping that declaration's name; the cache directories of the
declarations resolved before the failure remain populated (the disk list
only grows — no rollback); and the declarations after the failing one are
never attempted. -/
theorem c3_resolve_fail_fast (env : ResolveEnv) (pre post : List DepConfig)
    (bad : DepConfig) (disk : List String) (failMsg : String)
    (hpre : ∀ d ∈ pre, env.fetchDep d = .ok ())
    (hbad : env.fetchDep bad = .error failMsg) :
    ResolveDependencies env (pre ++ bad :: post) disk =
      (.error ("failed to resolve dependency " ++ bad.name ++ ": " ++ failMsg),
       disk ++ pre.map (fun d => d.name),
       pre.map (fun d => d.name) ++ [bad.name]) := by
  induction pre generalizing disk with
  | nil => simp [ResolveDependencies, resolveDependency, hbad]
  | cons d ds ih =>
    have hd := hpre d (by simp)
    have hds : ∀ x ∈ ds, env.fetchDep x = .ok () := fun x hx => hpre x (by simp [hx])
    simp only [List.cons_append, ResolveDependencies, resolveDependency, hd, List.append_eq]
    rw [ih _ hds]
    simp

/-- Witness for C3: resolving `[valid, invalid, later]` leaves the valid
declaration's directory populated, wraps the invalid one's name, and never
attempts the later one. -/
theorem c3_resolve_fail_fast_witness :
    ResolveDependencies resolveEnvC [depGoodC, depBadC, depLaterC] [] =
      (.error ("failed to resolve dependency " ++ depBadC.name ++ ": " ++ "boom"),
       [] ++ [depGoodC].map (fun d => d.name),
       [depGoodC].map (fun d => d.name) ++ [depBadC.name]) :=
  c3_resolve_fail_fast resolveEnvC [depGoodC] [depLaterC] depBadC [] "boom"
    (by decide) (by decide)

/-! ## C4 — plugin argument building -/

/-- **C4**: plugin merging yields the global plugins first and the
language-specific ones after; in the plugin loop a required plugin whose
command is not on the search path fails the whole call, an optional
missing plugin is omitted (the call equals the call without it), and a
present plugin defaults an empty output directory to the language's and
contributes its `--<Name>_out=<OutputDir>` flag followed by one
`--<key>=<value>` flag per option entry. -/
theorem c4_plugin_args (env : ProtocEnv) (pc : ProjectConfig) (lang outDir : String) :
    (GetAllPlugins pc lang = pc.plugins ++
      (match GetLanguage pc lang with
       | some l => l.plugins
       | none => [])) ∧
    (∀ pre post (p : CustomPlugin), env.ensureLangOk lang = true →
      env.lookPath p.command = false → p.required = true →
      ∃ failName, Process env lang outDir (pre ++ p :: post) =
        .error ("failed to ensure custom plugin " ++ failName)) ∧
    (∀ pre post (p : CustomPlugin), env.lookPath p.command = false → p.required = false →
      Process env lang outDir (pre ++ p :: post) = Process env lang outDir (pre ++ post)) ∧
    (∀ (p : CustomPlugin) rest, env.lookPath p.command = true →
      processPlugins env outDir (p :: rest) =
        (processPlugins env outDir rest).map (fun tail =>
          ("--" ++ p.name ++ "_out=" ++
            (if p.outputDir = "" then outDir else p.outputDir)) ::
          (p.options.map (fun kv => "--" ++ kv.1 ++ "=" ++ kv.2) ++ tail))) := by
  refine ⟨rfl, ?_, ?_, ?_⟩
  · intro pre post p hlang hcmd hreq
    have hloop : ∃ failName, processPlugins env outDir (pre ++ p :: post) =
        .error ("failed to ensure custom plugin " ++ failName) := by
      induction pre with
      | nil => exact ⟨p.name, by simp [processPlugins, hcmd, hreq]⟩
      | cons q qs ih =>
        obtain ⟨n, hn⟩ := ih
        by_cases hq : env.lookPath q.command
        · exact ⟨n, by simp [processPlugins, hq, hn, Except.map]⟩
        · by_cases hqr : q.required
          · exact ⟨q.name, by simp [processPlugins, hq, hqr]⟩
          · exact ⟨n, by simp [processPlugins, hq, hqr, hn]⟩
    obtain ⟨n, hn⟩ := hloop
    exact ⟨n, by simp [Process, hlang, hn, Except.map]⟩
  · intro pre post p hcmd hreq
    have hloop : processPlugins env outDir (pre ++ p :: post) =
        processPlugins env outDir (pre ++ post) := by
      induction pre with
      | nil => simp [processPlugins, hcmd, hreq]
      | cons q qs ih =>
        by_cases hq : env.lookPath q.command
        · simp [processPlugins, hq, ih]
        · by_cases hqr : q.required
          · simp [processPlugins, hq, hqr]
          · simp [processPlugins, hq, hqr, ih]
    simp [Process, hloop]
  · intro p rest h
    simp [processPlugins, h]

/-- Witness for C4: the spec's concrete example — a plugin with empty
output directory for `go` with output `./gen/go` contributes
`--twirp_out=./gen/go`; an optional missing plugin is omitted; a required
missing plugin aborts the call; merging over an empty configuration is
empty. -/
theorem c4_plugin_args_witness :
    Process protocEnvOk "go" "./gen/go" [twirpPluginC] =
      .ok ["--go_out=./gen/go", "--twirp_out=./gen/go"] ∧
    Process protocEnvMissing "go" "./gen/go" [optPluginC] =
      Process protocEnvMissing "go" "./gen/go" [] ∧
    (∃ failName, Process protocEnvMissing "go" "./gen/go" [twirpPluginC] =
      .error ("failed to ensure custom plugin " ++ failName)) ∧
    GetAllPlugins { languages := [], plugins := [] } "go" = [] := by
  refine ⟨by decide, ?_, ?_, ?_⟩
  · exact (c4_plugin_args protocEnvMissing { languages := [], plugins := [] }
      "go" "./gen/go").2.2.1 [] [] optPluginC (by decide) (by decide)
  · exact (c4_plugin_args protocEnvMissing { languages := [], plugins := [] }
      "go" "./gen/go").2.1 [] [] twirpPluginC (by decide) (by decide) (by decide)
  · exact (c4_plugin_args protocEnvOk { languages := [], plugins := [] } "go" "./gen/go").1

/-! ## C7 — GitHub zip extraction -/

theorem string_length_eq (s : String) : s.length = s.toList.length := rfl

/-- **C7**: for a GitHub archive whose entries all sit under one top-level
directory (the premise the claim states, with the directory name free of
`/`), extraction equals the claim-side description: the top-level prefix
is stripped from every entry, directory entries are skipped, only entries
under a requested subdirectory survive — re-rooted without the
subdirectory segment — and entries whose remaining path is empty produce
no file. -/
theorem c7_github_extract (entries : List ZipEntry) (top subDir : String)
    (htop : ∀ e ∈ entries, sHasPfx e.name (top ++ "/") = true)
    (hslash : '/' ∉ top.toList) :
    extractGitHubZipNames entries subDir = specGithubExtract top subDir entries := by
  have htl : (top ++ "/").toList = top.toList ++ '/' :: [] := by
    rw [toList_append]
    rfl
  have hlen : (top ++ "/").toList.length = top.length + 1 := by
    rw [htl, List.length_append, string_length_eq]
    rfl
  have hlen2 : (subDir ++ "/").toList.length = subDir.length + 1 := by
    rw [toList_append, List.length_append, string_length_eq]
    rfl
  unfold extractGitHubZipNames specGithubExtract
  cases hf : entries.find? (fun e => !e.isDir) with
  | none =>
    have hall : ∀ e ∈ entries, e.isDir = true := by
      intro e he
      have h2 := List.find?_eq_none.mp hf e he
      simpa using h2
    apply List.filterMap_congr
    intro e he
    simp [hall e he]
  | some e0 =>
    have hroot : rootPfxOf entries = top ++ "/" := by
      unfold rootPfxOf
      rw [hf]
      have he0 : e0 ∈ entries := List.mem_of_find?_eq_some hf
      obtain ⟨t, ht⟩ := eq_append_of_hasPfx (htop e0 he0)
      show String.mk (takeUntilSlash e0.name.toList) ++ "/" = top ++ "/"
      rw [ht, htl, List.append_assoc, List.cons_append, List.nil_append]
      rw [takeUntilSlash_append _ hslash, mk_toList]
    rw [hroot]
    apply List.filterMap_congr
    intro e he
    by_cases hd : e.isDir
    · simp [hd]
    · have hPfx := htop e he
      have hrel : sDropPfx e.name (top ++ "/") =
          String.mk (e.name.data.drop (top.length + 1)) := by
        unfold sDropPfx
        rw [dropPfx_of_hasPfx hPfx, hlen]
        rfl
      by_cases hsd : subDir = ""
      · simp [hd, hsd, hrel]
      · by_cases hp2 : sHasPfx (String.mk (e.name.data.drop (top.length + 1)))
            (subDir ++ "/") = true
        · have hrel2 : sDropPfx (String.mk (e.name.data.drop (top.length + 1)))
              (subDir ++ "/") =
              String.mk ((e.name.data.drop (top.length + 1)).drop (subDir.length + 1)) := by
            unfold sDropPfx
            rw [dropPfx_of_hasPfx hp2, hlen2]
            rfl
          simp [hd, hsd, hrel, hp2, hrel2]
        · simp only [Bool.not_eq_true] at hp2
          simp [hd, hsd, hrel, hp2]

/-- Witness for C7: the spec's example archive — entries prefixed
`repo-v1.2.0/`, subdirectory `proto` requested — extracts exactly the
re-rooted files under `proto`, and with no subdirectory all files with
the prefix stripped. -/
theorem c7_github_extract_witness :
    extractGitHubZipNames ghEntriesC "proto" =
      specGithubExtract "repo-v1.2.0" "proto" ghEntriesC ∧
    extractGitHubZipNames ghEntriesC "proto" = ["a.proto", "sub/b.proto"] ∧
    extractGitHubZipNames ghEntriesC "" =
      ["proto/a.proto", "readme.md", "proto/sub/b.proto"] :=
  ⟨c7_github_extract ghEntriesC "repo-v1.2.0" "proto" (by decide) (by decide),
   by decide, by decide⟩

/-! ## C10 — listing the cache -/

/-- **C10**: `ListCached` on a missing cache root returns an empty list
and no error; on a readable root it returns exactly the names of the
directory entries, in listing order (a sublist of the full listing),
excluding the non-directory entries. -/
theorem c10_list_cached :
    ListCached .notExist = .ok [] ∧
    ∀ es : List DirEntry,
      ListCached (.ok es) =
        .ok (es.filterMap (fun e => if e.isDir then some e.name else none)) ∧
      ((es.filter (fun e => e.isDir)).map (fun e => e.name)).Sublist
        (es.map (fun e => e.name)) := by
  refine ⟨rfl, fun es => ⟨?_, ?_⟩⟩
  · have hls : ∀ l : List DirEntry,
        (l.filter (fun e => e.isDir)).map (fun e => e.name) =
          l.filterMap (fun e => if e.isDir then some e.name else none) := by
      intro l
      induction l with
      | nil => rfl
      | cons e es ih => by_cases h : e.isDir <;> simp [h, ih]
    exact congrArg Except.ok (hls es)
  · exact (List.filter_sublist es).map _

end Protodex
